import Mathlib

/-!
Verification of the NetWorth personal financial-planning calculator.

The numeric engine of the application is embedded shallowly: the pure
arithmetic performed by the three components (NetWorthEngine,
PassiveIncomeTracker, FreedomScorecard) is translated into Lean functions
over exact rationals, one definition per source computation.  JS number
arithmetic is modelled by exact rational arithmetic; JS Math.round is
floor of x + 1/2; JS parseFloat is modelled on the character strings the
source can actually feed it (digits and dots, after the replace step).
-/

namespace NetWorth

/-- One named asset or liability slot of the NetWorthEngine component
(interface Asset / interface Liability: a name and a numeric value). -/
structure LineItem where
  mk ::
  name : String
  value : ℚ

/-- The totalAssets / totalLiabilities memo of NetWorthEngine:
items.reduce((sum, a) => sum + a.value, 0). -/
def reduceTotal (items : List LineItem) : ℚ :=
  items.foldl (fun sum a => sum + a.value) 0

/-- The netWorth memo of NetWorthEngine: totalAssets - totalLiabilities,
with both totals computed by reduceTotal over the two collections. -/
def netWorthOf (assets liabilities : List LineItem) : ℚ :=
  reduceTotal assets - reduceTotal liabilities

/-- The character class kept by parseCurrency's replace step: decimal
digits and the decimal point (character code 46). -/
def keepChar (c : Char) : Bool := c.isDigit || c.toNat = 46

/-- Decimal digits of a character list read as a natural number
(character code 48 is the digit zero). -/
def digitsToNat (cs : List Char) : ℕ :=
  cs.foldl (fun n c => 10 * n + (c.toNat - 48)) 0

/-- JS parseFloat restricted to the strings parseCurrency can feed it
(digits and dots only, no sign, no exponent): the longest leading literal
is digits, optionally a dot and further digits; the result is none when no
digit at all is read (parseFloat yields NaN there).  The parts are the
integer digits value, the fraction digits value and the fraction length. -/
def parseFloatParts (cs : List Char) : Option (ℕ × ℕ × ℕ) :=
  let intPart := cs.takeWhile (fun c => c.isDigit)
  let rest := cs.drop intPart.length
  let fracPart :=
    if rest.head?.map Char.toNat = some 46 then
      (rest.drop 1).takeWhile (fun c => c.isDigit)
    else []
  if intPart.isEmpty && fracPart.isEmpty then none
  else some (digitsToNat intPart, digitsToNat fracPart, fracPart.length)

/-- Assembles the parsed parts into a rational; none (parseFloat NaN)
falls back to 0, exactly the source's parseFloat(cleaned) || 0. -/
def floatPartsToRat : Option (ℕ × ℕ × ℕ) → ℚ
  | none => 0
  | some (i, f, l) => (i : ℚ) + (f : ℚ) / 10 ^ l

/-- parseCurrency of the three components: strip every character that is
not a digit or a decimal point, then parseFloat with fallback 0. -/
def parseCurrency (s : String) : ℚ :=
  let cleaned := s.data.filter keepChar
  floatPartsToRat (parseFloatParts cleaned)

/-- The stored value produced by handleAssetInputChange /
handleLiabilityInputChange: Math.max(0, parseCurrency(value)). -/
def handleAssetValue (s : String) : ℚ := max 0 (parseCurrency s)

/-- JS Math.round: round half toward positive infinity. -/
def jsRound (x : ℚ) : ℤ := ⌊x + 1 / 2⌋

/-- The value pushed for one year by NetWorthEngine's projectionData loop:
compoundedNetWorth plus the future value of the yearly investments, with
the annuity closed form when the rate is positive and the linear form
when the rate is zero (investment only counted for year > 0 and a
positive yearly investment). -/
def projectValue (netWorthNow rate yearlyInvestment : ℚ) (year : ℕ) : ℚ :=
  let compoundedNetWorth := netWorthNow * (1 + rate) ^ year
  let investmentValue :=
    if 0 < year ∧ 0 < yearlyInvestment ∧ 0 < rate then
      yearlyInvestment * ((1 + rate) ^ year - 1) / rate
    else if 0 < year ∧ 0 < yearlyInvestment then
      yearlyInvestment * (year : ℚ)
    else 0
  compoundedNetWorth + investmentValue

/-- NetWorthEngine's projectionData memo: one value per year from 0 to
horizon inclusive, at rate growthRate / 100. -/
def projectionData (netWorthNow growthRate : ℚ) (horizon : ℕ)
    (yearlyInvestment : ℚ) : List ℚ :=
  (List.range (horizon + 1)).map
    (fun year => projectValue netWorthNow (growthRate / 100) yearlyInvestment year)

/-- PassiveIncomeTracker's freedomPercentage memo: 0 when lifestyleCost is
0, otherwise Math.min(100, Math.round(current / lifestyleCost * 100)). -/
def trackerFreedomPercentage (currentPassiveIncome lifestyleCost : ℚ) : ℤ :=
  if lifestyleCost = 0 then 0
  else min 100 (jsRound (currentPassiveIncome / lifestyleCost * 100))

/-- FreedomScorecard's freedomPercentage memo: 100 when passiveIncome is
already at or above targetLifestyle, otherwise
Math.min(100, Math.round(passiveIncome / targetLifestyle * 100)). -/
def scorecardFreedomPercentage (passiveIncome targetLifestyle : ℚ) : ℤ :=
  if targetLifestyle ≤ passiveIncome then 100
  else min 100 (jsRound (passiveIncome / targetLifestyle * 100))

/-- Abstract outcome of the independence resolvers, with the date
formatting of the source stripped to the period index it encodes:
achievedNow is the current-month date returned up front by
financialIndependenceYear, unset is its null, inYear y is the date built
from currentYear + y, beyondHorizon is the string returned after the
50-period search is exhausted. -/
inductive IndependenceResult where
  | achievedNow : IndependenceResult
  | unset : IndependenceResult
  | inYear : ℕ → IndependenceResult
  | beyondHorizon : IndependenceResult
deriving DecidableEq

/-- The search loop shared by both resolvers: starting from the given
passive value at the given year index, with the given remaining number of
iterations (fuel), return the first year at which passive has reached the
target, compounding passive by (1 + rate) between iterations; none when
the fuel is exhausted. -/
def searchCrossing (target rate : ℚ) : ℕ → ℚ → ℕ → Option ℕ
  | 0, _, _ => none
  | fuel + 1, passive, year =>
    if target ≤ passive then some year
    else searchCrossing target rate fuel (passive * (1 + rate)) (year + 1)

/-- PassiveIncomeTracker's financialIndependenceYear memo: the
already-achieved shortcut, the null guards for zero cost, zero income or
zero growth, then the year-0-to-50 search loop. -/
def financialIndependenceYear
    (currentPassiveIncome lifestyleCost growthRate : ℚ) : IndependenceResult :=
  if lifestyleCost ≤ currentPassiveIncome ∧ 0 < lifestyleCost then
    IndependenceResult.achievedNow
  else if lifestyleCost = 0 ∨ currentPassiveIncome = 0 ∨ growthRate = 0 then
    IndependenceResult.unset
  else
    match searchCrossing lifestyleCost (growthRate / 100) 51 currentPassiveIncome 0 with
    | some year => IndependenceResult.inYear year
    | none => IndependenceResult.beyondHorizon

/-- FreedomScorecard's freedomDate memo: the year-0-to-50 search loop with
no guards at all. -/
def freedomDate (passiveIncome targetLifestyle growthRate : ℚ) : IndependenceResult :=
  match searchCrossing targetLifestyle (growthRate / 100) 51 passiveIncome 0 with
  | some year => IndependenceResult.inYear year
  | none => IndependenceResult.beyondHorizon

/-- The chart loop shared by PassiveIncomeTracker's and FreedomScorecard's
projectionData memos: push (lifestyle, passive) for each remaining year,
compounding passive by (1 + rate) between pushes. -/
def incomeProjectionLoop (lifestyle rate : ℚ) : ℕ → ℚ → List (ℚ × ℚ)
  | 0, _ => []
  | n + 1, passive =>
    (lifestyle, passive) :: incomeProjectionLoop lifestyle rate n (passive * (1 + rate))

/-- PassiveIncomeTracker's projectionData memo: 21 points (years 0 to 20),
lifestyle constant, passive compounding at growthRate / 100. -/
def trackerProjectionData
    (lifestyleCost currentPassiveIncome growthRate : ℚ) : List (ℚ × ℚ) :=
  incomeProjectionLoop lifestyleCost (growthRate / 100) 21 currentPassiveIncome

/-- FreedomScorecard's projectionData memo: identical 21-point loop; the
currentSavings binding is computed from activeIncome and savingsRate
exactly as in the source and, as in the source, never used afterwards. -/
def scorecardProjectionData
    (targetLifestyle passiveIncome activeIncome savingsRate growthRate : ℚ) :
    List (ℚ × ℚ) :=
  let currentSavings := activeIncome * (savingsRate / 100)
  incomeProjectionLoop targetLifestyle (growthRate / 100) 21 passiveIncome

/-- Auxiliary scan for findCrossing: first index at or after idx whose
value has reached the target. -/
def findCrossingAux (target : ℚ) : List ℚ → ℕ → Option ℕ
  | [], _ => none
  | v :: rest, idx =>
    if target ≤ v then some idx else findCrossingAux target rest (idx + 1)

/-- Modelled from the spec: section 4.4's findCrossing over an arbitrary
tracked sequence has no direct counterpart under src (both resolvers
inline a geometric sequence); following the spec's words it returns the
first period index t, starting at 0, where tracked(t) >= target and
target > 0, and NOT_FOUND (none) when target <= 0 or no period crosses. -/
def findCrossing (tracked : List ℚ) (target : ℚ) : Option ℕ :=
  if target ≤ 0 then none else findCrossingAux target tracked 0

/-- The search loop succeeds with year y exactly when y is start plus the
first offset k, within the fuel, at which the compounded passive value has
reached the target. -/
lemma searchCrossing_eq_some (target rate : ℚ) :
    ∀ (fuel : ℕ) (passive : ℚ) (start y : ℕ),
      searchCrossing target rate fuel passive start = some y ↔
        ∃ k, k < fuel ∧ y = start + k ∧ target ≤ passive * (1 + rate) ^ k ∧
          ∀ j, j < k → passive * (1 + rate) ^ j < target := by
  intro fuel
  induction fuel with
  | zero =>
    intro passive start y
    simp [searchCrossing]
  | succ n ih =>
    intro passive start y
    by_cases h : target ≤ passive
    · simp only [searchCrossing, if_pos h]
      constructor
      · intro hy
        have hy' := Option.some.inj hy
        subst hy'
        exact ⟨0, Nat.succ_pos n, (Nat.add_zero start).symm, by simpa using h,
          fun j hj => absurd hj (Nat.not_lt_zero j)⟩
      · rintro ⟨k, hk, rfl, hcross, hleast⟩
        rcases Nat.eq_zero_or_pos k with rfl | hkpos
        · rfl
        · have h0 := hleast 0 hkpos
          simp only [pow_zero, mul_one] at h0
          exact absurd h (not_le.mpr h0)
    · have hlt : passive < target := not_le.mp h
      simp only [searchCrossing, if_neg h]
      rw [ih (passive * (1 + rate)) (start + 1) y]
      constructor
      · rintro ⟨k, hk, rfl, hcross, hleast⟩
        refine ⟨k + 1, by omega, by omega, ?_, ?_⟩
        · calc target ≤ passive * (1 + rate) * (1 + rate) ^ k := hcross
            _ = passive * (1 + rate) ^ (k + 1) := by ring
        · intro j hj
          cases j with
          | zero => simpa using hlt
          | succ i =>
            have hi := hleast i (by omega)
            calc passive * (1 + rate) ^ (i + 1)
                = passive * (1 + rate) * (1 + rate) ^ i := by ring
              _ < target := hi
      · rintro ⟨k, hk, hy, hcross, hleast⟩
        cases k with
        | zero =>
          simp only [pow_zero, mul_one] at hcross
          exact absurd hcross (not_le.mpr hlt)
        | succ i =>
          refine ⟨i, by omega, by omega, ?_, ?_⟩
          · calc target ≤ passive * (1 + rate) ^ (i + 1) := hcross
              _ = passive * (1 + rate) * (1 + rate) ^ i := by ring
          · intro j hj
            have hj1 := hleast (j + 1) (by omega)
            calc passive * (1 + rate) * (1 + rate) ^ j
                = passive * (1 + rate) ^ (j + 1) := by ring
              _ < target := hj1

/-- The search loop is exhausted exactly when no offset within the fuel
reaches the target. -/
lemma searchCrossing_eq_none (target rate : ℚ) :
    ∀ (fuel : ℕ) (passive : ℚ) (start : ℕ),
      searchCrossing target rate fuel passive start = none ↔
        ∀ k, k < fuel → passive * (1 + rate) ^ k < target := by
  intro fuel
  induction fuel with
  | zero =>
    intro passive start
    simp [searchCrossing]
  | succ n ih =>
    intro passive start
    by_cases h : target ≤ passive
    · simp only [searchCrossing, if_pos h]
      constructor
      · intro hy
        simp at hy
      · intro hall
        have h0 := hall 0 (Nat.succ_pos n)
        simp only [pow_zero, mul_one] at h0
        exact absurd h (not_le.mpr h0)
    · have hlt : passive < target := not_le.mp h
      simp only [searchCrossing, if_neg h]
      rw [ih (passive * (1 + rate)) (start + 1)]
      constructor
      · intro hall j hj
        cases j with
        | zero => simpa using hlt
        | succ i =>
          have hi := hall i (by omega)
          calc passive * (1 + rate) ^ (i + 1)
              = passive * (1 + rate) * (1 + rate) ^ i := by ring
            _ < target := hi
      · intro hall k hk
        have hk1 := hall (k + 1) (by omega)
        calc passive * (1 + rate) * (1 + rate) ^ k
            = passive * (1 + rate) ^ (k + 1) := by ring
          _ < target := hk1

/-- freedomDate reports year y exactly when the 51-step search does. -/
lemma freedomDate_inYear (p target g : ℚ) (y : ℕ) :
    freedomDate p target g = IndependenceResult.inYear y ↔
      searchCrossing target (g / 100) 51 p 0 = some y := by
  unfold freedomDate
  cases hsc : searchCrossing target (g / 100) 51 p 0 with
  | none => simp
  | some z => simp

/-- freedomDate reports beyondHorizon exactly when the 51-step search is
exhausted. -/
lemma freedomDate_beyond (p target g : ℚ) :
    freedomDate p target g = IndependenceResult.beyondHorizon ↔
      searchCrossing target (g / 100) 51 p 0 = none := by
  unfold freedomDate
  cases hsc : searchCrossing target (g / 100) 51 p 0 with
  | none => simp
  | some z => simp

/-- When financialIndependenceYear reports year y, the 51-step search
found it. -/
lemma financialIndependenceYear_inYear (c l g : ℚ) (y : ℕ)
    (h : financialIndependenceYear c l g = IndependenceResult.inYear y) :
    searchCrossing l (g / 100) 51 c 0 = some y := by
  unfold financialIndependenceYear at h
  by_cases h1 : l ≤ c ∧ 0 < l
  · rw [if_pos h1] at h
    exact absurd h (by simp)
  · rw [if_neg h1] at h
    by_cases h2 : l = 0 ∨ c = 0 ∨ g = 0
    · rw [if_pos h2] at h
      exact absurd h (by simp)
    · rw [if_neg h2] at h
      cases hsc : searchCrossing l (g / 100) 51 c 0 with
      | none =>
        rw [hsc] at h
        exact absurd h (by simp)
      | some z =>
        rw [hsc] at h
        simp only [IndependenceResult.inYear.injEq] at h
        rw [h]

/-- The source's reduce over line items is the sum of their values. -/
lemma foldl_add_value (items : List LineItem) :
    ∀ init : ℚ, items.foldl (fun sum a => sum + a.value) init
      = init + (items.map LineItem.value).sum := by
  induction items with
  | nil =>
    intro init
    simp
  | cons a rest ih =>
    intro init
    rw [List.foldl_cons, ih, List.map_cons, List.sum_cons]
    ring

lemma reduceTotal_eq_sum (items : List LineItem) :
    reduceTotal items = (items.map LineItem.value).sum := by
  have h := foldl_add_value items 0
  rw [reduceTotal, h, zero_add]

/-- The chart loop always produces exactly one point per year of fuel. -/
lemma incomeProjectionLoop_length (lifestyle rate : ℚ) :
    ∀ (n : ℕ) (passive : ℚ),
      (incomeProjectionLoop lifestyle rate n passive).length = n := by
  intro n
  induction n with
  | zero =>
    intro passive
    rfl
  | succ m ih =>
    intro passive
    simp [incomeProjectionLoop, ih]

/-- The limit of the annuity closed form as the rate tends to 0 from the
right is the linear form: the quotient is a geometric sum, continuous in
the rate. -/
lemma annuity_tendsto (A : ℝ) (t : ℕ) :
    Filter.Tendsto (fun r : ℝ => A * ((1 + r) ^ t - 1) / r)
      (nhdsWithin 0 (Set.Ioi 0)) (nhds (A * t)) := by
  have hcont : Filter.Tendsto (fun r : ℝ => A * ∑ i ∈ Finset.range t, (1 + r) ^ i)
      (nhds 0) (nhds (A * t)) := by
    have h1 : Continuous (fun r : ℝ => A * ∑ i ∈ Finset.range t, (1 + r) ^ i) := by
      fun_prop
    have h2 := h1.tendsto 0
    simpa using h2
  refine Filter.Tendsto.congr' ?_ (hcont.mono_left nhdsWithin_le_nhds)
  filter_upwards [self_mem_nhdsWithin] with r hr
  have hr0 : r ≠ 0 := ne_of_gt hr
  have hx : (1 + r : ℝ) ≠ 1 := by
    intro hh
    exact hr0 (by linarith)
  have hgeom := geom_sum_eq hx t
  have hden : (1 + r : ℝ) - 1 = r := by ring
  rw [hgeom, hden]
  ring

/-- Worked example: 50000 at 7 percent first reaches 100000 at year 11. -/
lemma searchCrossing_example7 :
    searchCrossing 100000 (7 / 100) 51 50000 0 = some 11 := by
  rw [searchCrossing_eq_some]
  refine ⟨11, by norm_num, by norm_num, by norm_num, ?_⟩
  intro j hj
  calc (50000 : ℚ) * (1 + 7 / 100) ^ j ≤ 50000 * (1 + 7 / 100) ^ 10 := by
        gcongr
        · norm_num
        · omega
    _ < 100000 := by norm_num

lemma freedomDate_example7 :
    freedomDate 50000 100000 7 = IndependenceResult.inYear 11 :=
  (freedomDate_inYear 50000 100000 7 11).mpr searchCrossing_example7

lemma financialIndependenceYear_example7 :
    financialIndependenceYear 50000 100000 7 = IndependenceResult.inYear 11 := by
  unfold financialIndependenceYear
  rw [if_neg (by norm_num), if_neg (by norm_num), searchCrossing_example7]

/-- Worked example: 1 growing at 2 percent first reaches 2 at year 36,
past the 20-year chart window but inside the 50-year search bound. -/
lemma freedomDate_example2 :
    freedomDate 1 2 2 = IndependenceResult.inYear 36 := by
  refine (freedomDate_inYear 1 2 2 36).mpr ?_
  rw [searchCrossing_eq_some]
  refine ⟨36, by norm_num, by norm_num, by norm_num, ?_⟩
  intro j hj
  calc (1 : ℚ) * (1 + 2 / 100) ^ j ≤ 1 * (1 + 2 / 100) ^ 35 := by
        gcongr
        · norm_num
        · omega
    _ < 2 := by norm_num

/-- Worked example: a flat tracked value of 1 never reaches 1000000, so
the search is exhausted. -/
lemma freedomDate_flat :
    freedomDate 1 1000000 0 = IndependenceResult.beyondHorizon := by
  refine (freedomDate_beyond 1 1000000 0).mpr ?_
  rw [searchCrossing_eq_none]
  intro k hk
  norm_num

lemma findCrossing_example :
    findCrossing [50, 90, 110, 130] 100 = some 2 := by
  norm_num [findCrossing, findCrossingAux]

/-- Claim C1: for every initial value V, growth percentage in [0, 15],
horizon n and yearly contribution A at least 0, the Growth Projector's
sequence at each period t up to n is the compounding closed form plus the
annuity closed form when the rate is positive, plus A * t when the rate is
zero, and the zero-rate branch agrees with the right-limit of the annuity
closed form as the rate tends to 0. -/
theorem claim1_projection_closed_form (V rpct A : ℚ) (n t : ℕ)
    (h0 : 0 ≤ rpct) (h15 : rpct ≤ 15) (hA : 0 ≤ A) (htn : t ≤ n) :
    (projectionData V rpct n A)[t]? = some (projectValue V (rpct / 100) A t) ∧
    projectValue V (rpct / 100) A 0 = V ∧
    (0 < rpct → 0 < t →
      projectValue V (rpct / 100) A t
        = V * (1 + rpct / 100) ^ t + A * ((1 + rpct / 100) ^ t - 1) / (rpct / 100)) ∧
    (rpct = 0 → 0 < t →
      projectValue V (rpct / 100) A t = V * (1 + rpct / 100) ^ t + A * t) ∧
    Filter.Tendsto (fun r : ℝ => (A : ℝ) * ((1 + r) ^ t - 1) / r)
      (nhdsWithin 0 (Set.Ioi 0)) (nhds ((A : ℝ) * t)) := by
  refine ⟨?_, ?_, ?_, ?_, annuity_tendsto (A : ℝ) t⟩
  · rw [projectionData, List.getElem?_map, List.getElem?_range (by omega)]
    rfl
  · simp [projectValue]
  · intro hr ht
    rcases eq_or_lt_of_le hA with rfl | hApos
    · simp [projectValue]
    · simp only [projectValue]
      rw [if_pos ⟨ht, hApos, by positivity⟩]
  · intro hr ht
    subst hr
    rcases eq_or_lt_of_le hA with rfl | hApos
    · simp [projectValue]
    · simp only [projectValue]
      rw [if_neg (by norm_num), if_pos ⟨ht, hApos⟩]

/-- Witness for claim C1 at V = 100, rpct = 5, A = 10, n = 3, t = 2. -/
theorem claim1_projection_closed_form_check :
    projectValue 100 ((5 : ℚ) / 100) 10 0 = 100 :=
  (claim1_projection_closed_form 100 5 10 3 2 (by norm_num) (by norm_num)
    (by norm_num) (by norm_num)).2.1

/-- Claim C2: whichever resolver reports a numeric year, that year is the
smallest period at which the compounded tracked value has reached the
target; with target 100 over the tracked values 50, 90, 110, 130 the
spec-level findCrossing returns period 2; and 50000 growing at 7 percent
against target 100000 resolves to period 11 in both resolvers. -/
theorem claim2_resolver_least (p target g : ℚ) (y : ℕ)
    (h : freedomDate p target g = IndependenceResult.inYear y) :
    (target ≤ p * (1 + g / 100) ^ y ∧
      ∀ t, t < y → p * (1 + g / 100) ^ t < target) ∧
    (∀ (c l g2 : ℚ) (y2 : ℕ),
      financialIndependenceYear c l g2 = IndependenceResult.inYear y2 →
        l ≤ c * (1 + g2 / 100) ^ y2 ∧
          ∀ t, t < y2 → c * (1 + g2 / 100) ^ t < l) ∧
    findCrossing [50, 90, 110, 130] 100 = some 2 ∧
    freedomDate 50000 100000 7 = IndependenceResult.inYear 11 ∧
    financialIndependenceYear 50000 100000 7 = IndependenceResult.inYear 11 := by
  refine ⟨?_, ?_, findCrossing_example, freedomDate_example7,
    financialIndependenceYear_example7⟩
  · have hs := (freedomDate_inYear p target g y).mp h
    rw [searchCrossing_eq_some] at hs
    obtain ⟨k, hk, hyk, hcross, hleast⟩ := hs
    have hky : k = y := by omega
    subst hky
    exact ⟨hcross, hleast⟩
  · intro c l g2 y2 h2
    have hs := financialIndependenceYear_inYear c l g2 y2 h2
    rw [searchCrossing_eq_some] at hs
    obtain ⟨k, hk, hyk, hcross, hleast⟩ := hs
    have hky : k = y2 := by omega
    subst hky
    exact ⟨hcross, hleast⟩

/-- Witness for claim C2 at the 50000 / 100000 / 7 percent example. -/
theorem claim2_resolver_least_check :
    (100000 : ℚ) ≤ 50000 * (1 + 7 / 100) ^ 11 ∧
      ∀ t, t < 11 → (50000 : ℚ) * (1 + 7 / 100) ^ t < 100000 :=
  (claim2_resolver_least 50000 100000 7 11 freedomDate_example7).1

/-- Claim C3 as stated is false: the FreedomScorecard resolver has no
zero-target guard, so a target of exactly 0 is reported as a crossing at
period 0. -/
theorem claim3_zero_target_counterexample :
    freedomDate 50 0 7 = IndependenceResult.inYear 0 := by
  refine (freedomDate_inYear 50 0 7 0).mpr ?_
  rw [searchCrossing_eq_some]
  exact ⟨0, by norm_num, by norm_num, by norm_num,
    fun j hj => absurd hj (Nat.not_lt_zero j)⟩

/-- Claim C3 amended: the PassiveIncomeTracker resolver does treat a
lifestyle cost of exactly 0 as unset (NOT_FOUND) regardless of tracked
values, but the FreedomScorecard resolver reports any target at most 0 as
already achieved at period 0 whenever the initial tracked value is
nonnegative. -/
theorem claim3_zero_target (p g target : ℚ) (hp : 0 ≤ p) (ht : target ≤ 0) :
    financialIndependenceYear p 0 g = IndependenceResult.unset ∧
    freedomDate p target g = IndependenceResult.inYear 0 := by
  constructor
  · unfold financialIndependenceYear
    rw [if_neg (by simp), if_pos (Or.inl rfl)]
  · refine (freedomDate_inYear p target g 0).mpr ?_
    rw [searchCrossing_eq_some]
    refine ⟨0, by norm_num, rfl, ?_, fun j hj => absurd hj (Nat.not_lt_zero j)⟩
    calc target ≤ 0 := ht
      _ ≤ p * (1 + g / 100) ^ 0 := by simpa using hp

/-- Witness for the amended claim C3 at p = 50, g = 7, target = 0. -/
theorem claim3_zero_target_check :
    financialIndependenceYear 50 0 7 = IndependenceResult.unset ∧
    freedomDate 50 0 7 = IndependenceResult.inYear 0 :=
  claim3_zero_target 50 7 0 (by norm_num) (le_refl 0)

/-- Claim C5 as stated is false: the FreedomScorecard percentage with both
current and target 0 returns 100, not 0, because its shortcut branch fires
on 0 at or above 0 before any zero-target guard could. -/
theorem claim5_progress_counterexample :
    scorecardFreedomPercentage 0 0 = 100 ∧ scorecardFreedomPercentage 0 0 ≠ 0 := by
  have h : scorecardFreedomPercentage 0 0 = 100 := by
    simp only [scorecardFreedomPercentage]
    rw [if_pos (le_refl (0 : ℚ))]
  exact ⟨h, by rw [h]; norm_num⟩

/-- Claim C5 amended: both percentage calculators give 0 at current 0 and
target 100 and the clamped 100 at current 150 and target 100; the
PassiveIncomeTracker variant returns 0 for a zero target whatever the
current value, but the FreedomScorecard variant returns 100 when both
current and target are 0. -/
theorem claim5_progress_values :
    (∀ c : ℚ, trackerFreedomPercentage c 0 = 0) ∧
    trackerFreedomPercentage 0 100 = 0 ∧
    trackerFreedomPercentage 150 100 = 100 ∧
    scorecardFreedomPercentage 0 100 = 0 ∧
    scorecardFreedomPercentage 150 100 = 100 ∧
    scorecardFreedomPercentage 0 0 = 100 := by
  have hfl0 : (⌊(0 : ℚ) / 100 * 100 + 1 / 2⌋ : ℤ) = 0 := by
    rw [Int.floor_eq_iff]
    norm_num
  have hfl150 : (⌊(150 : ℚ) / 100 * 100 + 1 / 2⌋ : ℤ) = 150 := by
    rw [Int.floor_eq_iff]
    norm_num
  refine ⟨?_, ?_, ?_, ?_, ?_, ?_⟩
  · intro c
    simp [trackerFreedomPercentage]
  · simp only [trackerFreedomPercentage, jsRound]
    rw [if_neg (by norm_num), hfl0]
    norm_num
  · simp only [trackerFreedomPercentage, jsRound]
    rw [if_neg (by norm_num), hfl150]
    norm_num
  · simp only [scorecardFreedomPercentage, jsRound]
    rw [if_neg (by norm_num), hfl0]
    norm_num
  · simp only [scorecardFreedomPercentage]
    rw [if_pos (by norm_num)]
  · simp only [scorecardFreedomPercentage]
    rw [if_pos (le_refl (0 : ℚ))]

/-- Claim C6: net worth is exactly the sum of asset values minus the sum
of liability values, for every pair of collections of nonnegative line
items (and the difference itself is unclamped, so it may be negative). -/
theorem claim6_net_worth (assets liabilities : List LineItem)
    (ha : ∀ item ∈ assets, 0 ≤ item.value)
    (hl : ∀ item ∈ liabilities, 0 ≤ item.value) :
    netWorthOf assets liabilities
      = (assets.map LineItem.value).sum - (liabilities.map LineItem.value).sum := by
  rw [netWorthOf, reduceTotal_eq_sum, reduceTotal_eq_sum]

/-- Witness for claim C6 at the spec's end-to-end scenario: assets
1421000 and 1091000 against liability 607000 give net worth 1905000. -/
theorem claim6_net_worth_check :
    netWorthOf
        [LineItem.mk ("Cash") 1421000, LineItem.mk ("Stocks & ETFs") 1091000]
        [LineItem.mk ("Mortgage") 607000] = 1905000 := by
  have h := claim6_net_worth
    [LineItem.mk ("Cash") 1421000, LineItem.mk ("Stocks & ETFs") 1091000]
    [LineItem.mk ("Mortgage") 607000]
    (by intro item him; fin_cases him <;> norm_num)
    (by intro item him; fin_cases him <;> norm_num)
  rw [h]
  norm_num [List.map]

/-- Claim C7: the PassiveIncomeTracker chart covers exactly 21 points
(20 periods), while the resolver searches periods 0 through 50: it
reports beyondHorizon exactly when no period up to 50 crosses the target,
the beyondHorizon sentinel is distinct from every numeric year (period 0
included), and a crossing at period 36, past the chart window, is still
found. -/
theorem claim7_search_bound (p target g lifestyleCost : ℚ) :
    (trackerProjectionData lifestyleCost p g).length = 21 ∧
    (freedomDate p target g = IndependenceResult.beyondHorizon ↔
      ∀ t, t ≤ 50 → p * (1 + g / 100) ^ t < target) ∧
    (∀ y : ℕ, IndependenceResult.inYear y ≠ IndependenceResult.beyondHorizon) ∧
    freedomDate 1 2 2 = IndependenceResult.inYear 36 := by
  refine ⟨?_, ?_, ?_, freedomDate_example2⟩
  · rw [trackerProjectionData]
    exact incomeProjectionLoop_length lifestyleCost (g / 100) 21 p
  · rw [freedomDate_beyond, searchCrossing_eq_none]
    constructor
    · intro hall t ht
      exact hall t (by omega)
    · intro hall k hk
      exact hall k (by omega)
  · intro y hy
    exact IndependenceResult.noConfusion hy

/-- Witness for claim C7: the flat example never crosses, so the search
bound delivers a strict bound at period 50. -/
theorem claim7_search_bound_check :
    (1 : ℚ) * (1 + 0 / 100) ^ 50 < 1000000 :=
  ((claim7_search_bound 1 1000000 0 0).2.1.mp freedomDate_flat) 50 (le_refl 50)

/-- Claim C8 as stated is false: the text -500 does not normalize to 0;
the replace step strips the minus sign before parsing, so parseCurrency
returns 500 and the Math.max floor in the handler leaves it unchanged. -/
theorem claim8_negative_input_counterexample :
    parseCurrency ("-500") = 500 ∧ handleAssetValue ("-500") = 500 := by
  have h : parseFloatParts (("-500").data.filter keepChar) = some (500, 0, 0) := by
    decide
  have hp : parseCurrency ("-500") = 500 := by
    simp only [parseCurrency, h, floatPartsToRat]
    norm_num
  refine ⟨hp, ?_⟩
  simp only [handleAssetValue, hp]
  norm_num

/-- Claim C8 amended: every raw currency text normalizes to a finite
nonnegative rational and the handler's Math.max floor never changes it;
the text abc normalizes to 0, while the text -500 normalizes to 500
because the sign is stripped before parsing, not floored to 0. -/
theorem claim8_normalizer_nonneg :
    (∀ s : String, 0 ≤ parseCurrency s ∧ handleAssetValue s = parseCurrency s) ∧
    parseCurrency ("abc") = 0 ∧ parseCurrency ("-500") = 500 := by
  have hnn : ∀ s : String, 0 ≤ parseCurrency s := by
    intro s
    simp only [parseCurrency]
    cases hp : parseFloatParts (s.data.filter keepChar) with
    | none =>
      simp [floatPartsToRat]
    | some parts =>
      obtain ⟨i, f, l⟩ := parts
      simp only [floatPartsToRat]
      positivity
  refine ⟨fun s => ⟨hnn s, max_eq_right (hnn s)⟩, ?_, ?_⟩
  · have h : parseFloatParts (("abc").data.filter keepChar) = none := by decide
    simp [parseCurrency, h, floatPartsToRat]
  · have h : parseFloatParts (("-500").data.filter keepChar) = some (500, 0, 0) := by
      decide
    simp only [parseCurrency, h, floatPartsToRat]
    norm_num

/-- Claim C9: with a positive initial value, a positive rate and no
yearly contribution, the projected value strictly increases from each
period to the next. -/
theorem claim9_strict_growth (V r : ℚ) (t : ℕ) (hV : 0 < V) (hr : 0 < r) :
    projectValue V r 0 t < projectValue V r 0 (t + 1) := by
  have hval : ∀ n : ℕ, projectValue V r 0 n = V * (1 + r) ^ n := by
    intro n
    simp [projectValue]
  rw [hval, hval]
  have h1 : (1 : ℚ) < 1 + r := by linarith
  calc V * (1 + r) ^ t = V * (1 + r) ^ t * 1 := by ring
    _ < V * (1 + r) ^ t * (1 + r) := by
        exact mul_lt_mul_of_pos_left h1 (by positivity)
    _ = V * (1 + r) ^ (t + 1) := by ring

/-- Witness for claim C9 at V = 1, r = 6 / 100, t = 2. -/
theorem claim9_strict_growth_check :
    projectValue 1 ((6 : ℚ) / 100) 0 2 < projectValue 1 ((6 : ℚ) / 100) 0 3 :=
  claim9_strict_growth 1 ((6 : ℚ) / 100) 2 (by norm_num) (by norm_num)

/-- Claim C10: the FreedomScorecard projection series is independent of
activeIncome and savingsRate: the savings amount is computed and then
never fed into the loop, so any two runs agreeing on the other three
inputs produce identical series. -/
theorem claim10_savings_independent
    (targetLifestyle passiveIncome growthRate a1 s1 a2 s2 : ℚ) :
    scorecardProjectionData targetLifestyle passiveIncome a1 s1 growthRate
      = scorecardProjectionData targetLifestyle passiveIncome a2 s2 growthRate := rfl

end NetWorth
